import Mathlib

/-
Verification development for the date-estimation service of the Prox mobile
app (src/src/pages/DealSearch.tsx, lines 192-386): the heuristic rule table,
the heuristic resolver `getHeuristicEstimate`, the oracle client
`getLLMEstimate`, and the orchestrator `estimateDates`.

Modelling choices (JavaScript semantics):
- A date-only ISO string parses to midnight UTC, and `setDate` arithmetic on
  such a Date is exact day arithmetic, so dates are modelled as day numbers
  (days since 1970-01-01) via the standard civil-calendar conversion.
- `toISOString().split('T')[0]` is `formatDate` on the day number.
- `new Date(s)` on an unparseable string yields an Invalid Date; every
  arithmetic on it stays NaN and the final `toISOString()` throws a
  RangeError.  A thrown call is modelled as `none`.
- An oracle payload field that is absent is JavaScript `undefined`, modelled
  as `Option.none`; `getDate() + undefined` is NaN, which propagates to the
  expiration Date and makes `toISOString()` throw.  When only the restock
  field is undefined, `Math.min(expTime, NaN)` is NaN and `NaN === NaN` is
  false, so the code silently returns the expiration date as the restock
  date without throwing.
- Oracle numeric fields are modelled as mathematical integers; the finite
  range of the JS Date type is not modelled.
- The rule-table lookup `HEURISTIC_RULES[category]` is a JavaScript property
  read on an object literal, which inherits from `Object.prototype`: for a
  category string naming one of that prototype's properties (for example
  "toString", "constructor", "__proto__") the read yields a truthy inherited
  value, the falsiness fallback at line 311 is skipped, the keyword loop
  iterates over no entries, and the function returns the inherited value's
  absent `default` property, i.e. `undefined`; the orchestrator then reads
  `estimate.shelf_life` of `undefined` at line 366 and throws a TypeError.
-/

namespace ProxDates

/-- Gregorian leap-year test. -/
def isLeapYear (y : Int) : Bool :=
  (y % 4 == 0 && y % 100 != 0) || y % 400 == 0

/-- Length in days of month `m` of year `y` (months numbered 1..12). -/
def daysInMonth (y m : Int) : Int :=
  if m == 1 || m == 3 || m == 5 || m == 7 || m == 8 || m == 10 || m == 12 then 31
  else if m == 4 || m == 6 || m == 9 || m == 11 then 30
  else if isLeapYear y then 29
  else 28

/-- Day number (days since 1970-01-01) of the civil date `y-m-d`
(Hinnant's civil-calendar algorithm; `/` on `Int` floors for the positive
divisors used here). -/
def daysFromCivil (y m d : Int) : Int :=
  let y2 := if m <= 2 then y - 1 else y
  let era := y2 / 400
  let yoe := y2 - era * 400
  let mp := m + (if m > 2 then -3 else 9)
  let doy := (153 * mp + 2) / 5 + d - 1
  let doe := yoe * 365 + yoe / 4 - yoe / 100 + doy
  era * 146097 + doe - 719468

/-- Civil date `(y, m, d)` of a day number (inverse of `daysFromCivil`). -/
def civilFromDays (z : Int) : Int × Int × Int :=
  let z2 := z + 719468
  let era := z2 / 146097
  let doe := z2 - era * 146097
  let yoe := (doe - doe / 1460 + doe / 36524 - doe / 146096) / 365
  let y := yoe + era * 400
  let doy := doe - (365 * yoe + yoe / 4 - yoe / 100)
  let mp := (5 * doy + 2) / 153
  let d := doy - (153 * mp + 2) / 5 + 1
  let m := mp + (if mp < 10 then 3 else -9)
  (if m <= 2 then y + 1 else y, m, d)

/-- Left-pad the decimal representation of `n` with zeros to `width`. -/
def padNum (width : Nat) (n : Nat) : String :=
  let s := toString n
  String.mk (List.replicate (width - s.length) '0') ++ s

/-- ISO date string of a day number, as produced by
`Date.prototype.toISOString().split('T')[0]` (years 0..9999 print as four
digits; expanded years carry a sign and six digits). -/
def formatDate (z : Int) : String :=
  let c := civilFromDays z
  let y := c.1
  let m := c.2.1
  let d := c.2.2
  let ys :=
    if 0 <= y && y <= 9999 then padNum 4 y.toNat
    else if 9999 < y then "+" ++ padNum 6 y.toNat
    else "-" ++ padNum 6 (-y).toNat
  ys ++ "-" ++ padNum 2 m.toNat ++ "-" ++ padNum 2 d.toNat

/-- Numeric value of a decimal digit character. -/
def digitVal (c : Char) : Nat := c.toNat - 48

/-- Day number of a date-only ISO string `YYYY-MM-DD`, or `none` when the
string does not denote a valid calendar date (JavaScript `new Date(s)`
yields an Invalid Date on such strings). -/
def parseDate (s : String) : Option Int :=
  match s.toList with
  | [y1, y2, y3, y4, h1, m1, m2, h2, d1, d2] =>
    if y1.isDigit && y2.isDigit && y3.isDigit && y4.isDigit &&
       h1 == '-' && m1.isDigit && m2.isDigit && h2 == '-' &&
       d1.isDigit && d2.isDigit then
      let y : Int := Int.ofNat (1000 * digitVal y1 + 100 * digitVal y2 + 10 * digitVal y3 + digitVal y4)
      let m : Int := Int.ofNat (10 * digitVal m1 + digitVal m2)
      let d : Int := Int.ofNat (10 * digitVal d1 + digitVal d2)
      if 1 <= m && m <= 12 && 1 <= d && d <= daysInMonth y m then
        some (daysFromCivil y m d)
      else none
    else none
  | _ => none

/-- Helper for `strIncludes`: JavaScript substring containment over
character lists. -/
def listIncludes (sub : List Char) : List Char → Bool
  | [] => sub.isEmpty
  | c :: cs => sub.isPrefixOf (c :: cs) || listIncludes sub cs

/-- JavaScript `s.includes(sub)`. -/
def strIncludes (s sub : String) : Bool :=
  listIncludes sub.toList s.toList

/-- JavaScript `s.toLowerCase()` on ASCII text, written over the character
list so that it evaluates inside the kernel. -/
def strToLower (s : String) : String :=
  String.mk (s.toList.map Char.toLower)

/-- Horizon pair `{ shelf_life, restock }` in whole days (DealSearch.tsx
lines 309, 327: the `{ shelf_life: number; restock: number }` shape). -/
structure HorizonPair where
  shelf_life : Int
  restock : Int
deriving DecidableEq

/-- One category's entry of `HEURISTIC_RULES`: a default pair and keyword
overrides in their authored (insertion) order. -/
structure CategoryRule where
  default : HorizonPair
  keywords : List (String × HorizonPair)
deriving DecidableEq

/-- Rule table `HEURISTIC_RULES` (DealSearch.tsx lines 207-307), with the
authored key order preserved (JavaScript object string keys iterate in
insertion order). -/
def HEURISTIC_RULES : List (String × CategoryRule) :=
  [ ("Produce", ⟨⟨5, 7⟩,
      [ ("apple", ⟨14, 14⟩), ("banana", ⟨7, 7⟩), ("lettuce", ⟨5, 7⟩),
        ("spinach", ⟨3, 7⟩), ("tomato", ⟨7, 10⟩), ("avocado", ⟨5, 7⟩),
        ("carrot", ⟨21, 14⟩), ("onion", ⟨30, 21⟩), ("potato", ⟨30, 21⟩) ]⟩),
    ("Dairy", ⟨⟨7, 10⟩,
      [ ("milk", ⟨7, 7⟩), ("cheese", ⟨14, 14⟩), ("yogurt", ⟨14, 10⟩),
        ("butter", ⟨30, 30⟩), ("eggs", ⟨25, 14⟩), ("cream", ⟨5, 10⟩) ]⟩),
    ("Meat", ⟨⟨2, 7⟩,
      [ ("chicken", ⟨2, 7⟩), ("beef", ⟨3, 10⟩), ("pork", ⟨3, 10⟩),
        ("fish", ⟨1, 7⟩), ("ground", ⟨1, 7⟩), ("frozen", ⟨90, 30⟩) ]⟩),
    ("Pantry", ⟨⟨180, 60⟩,
      [ ("bread", ⟨7, 7⟩), ("pasta", ⟨365, 90⟩), ("rice", ⟨365, 90⟩),
        ("cereal", ⟨60, 30⟩), ("flour", ⟨180, 90⟩), ("oil", ⟨365, 180⟩),
        ("canned", ⟨730, 90⟩) ]⟩),
    ("Frozen", ⟨⟨90, 30⟩,
      [ ("ice cream", ⟨60, 30⟩), ("vegetables", ⟨180, 60⟩),
        ("fruit", ⟨180, 60⟩), ("pizza", ⟨90, 30⟩) ]⟩),
    ("Beverages", ⟨⟨90, 30⟩,
      [ ("juice", ⟨7, 14⟩), ("soda", ⟨90, 30⟩), ("water", ⟨365, 30⟩),
        ("coffee", ⟨180, 60⟩), ("tea", ⟨365, 90⟩) ]⟩),
    ("Household", ⟨⟨365, 90⟩,
      [ ("paper", ⟨365, 60⟩), ("detergent", ⟨365, 90⟩), ("soap", ⟨365, 60⟩) ]⟩),
    ("Personal Care", ⟨⟨365, 90⟩,
      [ ("toothpaste", ⟨730, 90⟩), ("shampoo", ⟨365, 90⟩), ("deodorant", ⟨365, 90⟩) ]⟩),
    ("Baby", ⟨⟨30, 14⟩,
      [ ("formula", ⟨30, 14⟩), ("diapers", ⟨365, 30⟩), ("food", ⟨14, 14⟩) ]⟩),
    ("Pet", ⟨⟨90, 30⟩,
      [ ("food", ⟨90, 30⟩), ("treats", ⟨180, 60⟩), ("litter", ⟨365, 30⟩) ]⟩) ]

/-- Own property names of `Object.prototype`: a plain object literal
inherits these, so a property read with one of them as the key yields a
truthy inherited value (a function, or `Object.prototype` itself for
`__proto__`) rather than `undefined`. -/
def OBJECT_PROTOTYPE_KEYS : List String :=
  [ "constructor", "hasOwnProperty", "isPrototypeOf", "propertyIsEnumerable",
    "toLocaleString", "toString", "valueOf", "__defineGetter__",
    "__defineSetter__", "__lookupGetter__", "__lookupSetter__", "__proto__" ]

/-- Result of the JavaScript property read `HEURISTIC_RULES[category]`
(DealSearch.tsx line 310): the own entry when `category` is an authored
key, a truthy value inherited from `Object.prototype` when it is one of
that prototype's property names, and `undefined` otherwise. -/
inductive RulesLookup where
  | own (rule : CategoryRule)
  | inherited
  | absent
deriving DecidableEq

/-- JavaScript property lookup on the rule-table object literal, prototype
chain included. -/
def rulesLookup (category : String) : RulesLookup :=
  match HEURISTIC_RULES.find? (fun r => r.1 == category) with
  | some r => .own r.2
  | none =>
    if OBJECT_PROTOTYPE_KEYS.contains category then .inherited else .absent

/-- Heuristic resolver `getHeuristicEstimate` (DealSearch.tsx lines
309-325).  A category whose lookup reads `undefined` fails the truthiness
test and falls back to `{30, 30}`.  A category whose lookup reads a truthy
value inherited from `Object.prototype` skips that fallback; the inherited
value has no `keywords` property, so the keyword loop iterates over no
entries, and the function returns its absent `default` property, i.e.
JavaScript `undefined`, modelled as `none`.  Otherwise the name is
lower-cased and the first keyword override (in authored order) whose
keyword is a substring wins, else the category default. -/
def getHeuristicEstimate (name category : String) : Option HorizonPair :=
  match rulesLookup category with
  | .absent => some ⟨30, 30⟩
  | .inherited => none
  | .own categoryRules =>
    let nameLower := strToLower name
    match categoryRules.keywords.find? (fun kr => strIncludes nameLower kr.1) with
    | some kr => some kr.2
    | none => some categoryRules.default

/-- Body fields of a parseable 2xx oracle response (`data.shelfLifeDays`,
`data.restockDays`); `none` models a field that is absent, i.e. JavaScript
`undefined` (property access on a JSON object does not throw). -/
structure LLMPayload where
  shelfLifeDays : Option Int
  restockDays : Option Int
deriving DecidableEq

/-- Outcome of the single HTTPS POST to the oracle: a 2xx response whose
body parsed as JSON, a non-2xx status (line 337 throws), a body that
`response.json()` could not parse (or a null payload whose property access
throws), a network error from `fetch`, or a timeout. -/
inductive OracleOutcome where
  | ok (payload : LLMPayload)
  | badStatus
  | parseError
  | networkError
  | timeout
deriving DecidableEq

/-- Accepted estimate shape inside `estimateDates`; on the oracle path each
field may be `undefined` (`none`) because the payload fields are copied
without validation (lines 342-345). -/
structure RawEstimate where
  shelf_life : Option Int
  restock : Option Int
deriving DecidableEq

/-- Oracle client `getLLMEstimate` (DealSearch.tsx lines 327-350): every
failure inside the `try` block is caught and returned as `null`; a
parseable 2xx body has its two fields copied directly, present or not. -/
def getLLMEstimate : OracleOutcome → Option RawEstimate
  | .ok payload => some ⟨payload.shelfLifeDays, payload.restockDays⟩
  | .badStatus => none
  | .parseError => none
  | .networkError => none
  | .timeout => none

/-- Coercion of a heuristic pair into the accepted-estimate shape (the
fields of a pair actually returned by the resolver are present). -/
def toRawEstimate (p : HorizonPair) : RawEstimate :=
  ⟨some p.shelf_life, some p.restock⟩

/-- Input of `estimateDates` (DealSearch.tsx lines 194-198). -/
structure EstimateDatesInput where
  name : String
  category : String
  purchasedAt : String
deriving DecidableEq

/-- Output of `estimateDates` (DealSearch.tsx lines 200-204); `source` is
the string `"heuristic"` or `"llm"` of the TypeScript literal union. -/
structure EstimateDatesOutput where
  estimatedExpirationAt : String
  estimatedRestockAt : String
  source : String
deriving DecidableEq

/-- Fallback step of `estimateDates` (DealSearch.tsx lines 355-362 together
with the field read at line 366): try the oracle first and tag `"llm"`; on
`null` take the heuristic estimate and tag `"heuristic"`.  When the
heuristic resolver itself returned `undefined` (a category naming an
`Object.prototype` property), the read `estimate.shelf_life` at line 366
throws a TypeError, modelled as `none`. -/
def acceptedEstimate (oracle : OracleOutcome) (input : EstimateDatesInput) :
    Option (RawEstimate × String) :=
  match getLLMEstimate oracle with
  | some estimate => some (estimate, "llm")
  | none =>
    match getHeuristicEstimate input.name input.category with
    | some p => some (toRawEstimate p, "heuristic")
    | none => none

/-- Orchestrator `estimateDates` (DealSearch.tsx lines 352-386), with the
oracle outcome passed explicitly.  `none` models the call rejecting with a
thrown error: the TypeError from reading `shelf_life` of an undefined
heuristic estimate, or the RangeError from `toISOString()` on the Invalid
Date that results from an unparseable `purchasedAt` or an undefined
shelf-life field.  When only the restock field is undefined,
`Math.min(expTime, NaN) === NaN` is false, so the code returns the capped
expiration date as the restock date without throwing (see the file
header). -/
def estimateDates (oracle : OracleOutcome) (input : EstimateDatesInput) :
    Option EstimateDatesOutput :=
  let purchaseDate := parseDate input.purchasedAt
  match acceptedEstimate oracle input with
  | none => none
  | some es =>
    let estimate := es.1
    let source := es.2
    match purchaseDate, estimate.shelf_life with
    | some pd, some sl =>
      let expirationDate := pd + sl
      let maxExpirationDate := pd + 365
      let finalExpiration :=
        if expirationDate > maxExpirationDate then maxExpirationDate else expirationDate
      some
        { estimatedExpirationAt := formatDate finalExpiration,
          estimatedRestockAt :=
            match estimate.restock with
            | some rk =>
              let restockDate := pd + rk
              if min finalExpiration restockDate == restockDate then formatDate restockDate
              else formatDate finalExpiration
            | none => formatDate finalExpiration,
          source := source }
    | _, _ => none

/-- Verification predicate: a horizon pair has shelf life at least 1 day and
restock at least 7 days. -/
def pairBoundsOk (p : HorizonPair) : Bool :=
  1 <= p.shelf_life && 7 <= p.restock

/-- Verification predicate: every pair of a category rule satisfies
`pairBoundsOk`. -/
def ruleBoundsOk (r : CategoryRule) : Bool :=
  pairBoundsOk r.default && r.keywords.all (fun kr => pairBoundsOk kr.2)

/-- Inversion of the table lookup: an own-entry result comes from a found
entry of the authored table. -/
theorem rulesLookup_own_inv (category : String) (rule : CategoryRule)
    (h : rulesLookup category = .own rule) :
    ∃ entry, HEURISTIC_RULES.find? (fun r => r.1 == category) = some entry ∧
      entry.2 = rule := by
  cases hf : HEURISTIC_RULES.find? (fun r => r.1 == category) with
  | none =>
    exfalso
    simp only [rulesLookup, hf] at h
    split at h <;> simp at h
  | some e =>
    simp only [rulesLookup, hf, RulesLookup.own.injEq] at h
    exact ⟨e, rfl, h⟩

/-- Every pair the heuristic resolver actually returns has shelf life at
least 1 and restock at least 7 (finite check over the authored table plus
the global fallback; the inherited-category case returns no pair). -/
theorem getHeuristicEstimate_bounds (name category : String) (p : HorizonPair)
    (hres : getHeuristicEstimate name category = some p) :
    1 ≤ p.shelf_life ∧ 7 ≤ p.restock := by
  have hall : ∀ r ∈ HEURISTIC_RULES, ruleBoundsOk r.2 = true := by decide
  unfold getHeuristicEstimate at hres
  cases hl : rulesLookup category with
  | absent =>
    rw [hl] at hres
    injection hres with hres
    rw [← hres]
    exact ⟨by norm_num, by norm_num⟩
  | inherited =>
    rw [hl] at hres
    exact absurd hres (by simp)
  | own rule =>
    rw [hl] at hres
    obtain ⟨entry, hf, hent⟩ := rulesLookup_own_inv category rule hl
    have hok := hall entry (List.mem_of_find?_eq_some hf)
    rw [hent] at hok
    unfold ruleBoundsOk at hok
    rw [Bool.and_eq_true] at hok
    cases hk : rule.keywords.find? (fun kr => strIncludes (strToLower name) kr.1) with
    | none =>
      simp only [hk] at hres
      injection hres with hres
      rw [← hres]
      have h1 := hok.1
      unfold pairBoundsOk at h1
      simp only [Bool.and_eq_true, decide_eq_true_eq] at h1
      exact h1
    | some kr =>
      simp only [hk] at hres
      injection hres with hres
      rw [← hres]
      have h1 := (List.all_eq_true.mp hok.2) kr (List.mem_of_find?_eq_some hk)
      unfold pairBoundsOk at h1
      simp only [Bool.and_eq_true, decide_eq_true_eq] at h1
      exact h1

/-- When the oracle fails and the resolver yields a pair, the accepted
estimate is that pair with the heuristic tag. -/
theorem acceptedEstimate_heuristic (oracle : OracleOutcome) (input : EstimateDatesInput)
    (p : HorizonPair) (hllm : getLLMEstimate oracle = none)
    (hh : getHeuristicEstimate input.name input.category = some p) :
    acceptedEstimate oracle input = some (toRawEstimate p, "heuristic") := by
  simp only [acceptedEstimate, hllm, hh]

/-- Inversion of a successful `estimateDates` call: an estimate was
accepted, the purchase date parsed, the accepted shelf-life field was
present, and every output field has the closed form read off the source. -/
theorem estimateDates_some_inv (oracle : OracleOutcome) (input : EstimateDatesInput)
    (out : EstimateDatesOutput) (h : estimateDates oracle input = some out) :
    ∃ (pd sl : Int) (est : RawEstimate) (src : String),
      parseDate input.purchasedAt = some pd ∧
      acceptedEstimate oracle input = some (est, src) ∧
      est.shelf_life = some sl ∧
      out.source = src ∧
      out.estimatedExpirationAt =
        formatDate (if pd + sl > pd + 365 then pd + 365 else pd + sl) ∧
      out.estimatedRestockAt =
        (match est.restock with
         | some rk =>
           if min (if pd + sl > pd + 365 then pd + 365 else pd + sl) (pd + rk) == pd + rk
           then formatDate (pd + rk)
           else formatDate (if pd + sl > pd + 365 then pd + 365 else pd + sl)
         | none => formatDate (if pd + sl > pd + 365 then pd + 365 else pd + sl)) := by
  simp only [estimateDates] at h
  cases ha : acceptedEstimate oracle input with
  | none => simp only [ha] at h; simp at h
  | some es =>
    simp only [ha] at h
    cases hp : parseDate input.purchasedAt with
    | none => simp only [hp] at h; simp at h
    | some pd =>
      cases hs : es.1.shelf_life with
      | none => simp only [hp, hs] at h; simp at h
      | some sl =>
        simp only [hp, hs, Option.some.injEq] at h
        exact ⟨pd, sl, es.1, es.2, rfl, rfl, hs,
          by rw [← h], by rw [← h], by rw [← h]⟩

/-- An accepted estimate with a present shelf-life field and a parseable
purchase date guarantee `estimateDates` returns a result. -/
theorem estimateDates_isSome (oracle : OracleOutcome) (input : EstimateDatesInput)
    (pd sl : Int) (est : RawEstimate) (src : String)
    (hp : parseDate input.purchasedAt = some pd)
    (ha : acceptedEstimate oracle input = some (est, src))
    (hs : est.shelf_life = some sl) :
    ∃ out, estimateDates oracle input = some out := by
  simp only [estimateDates, ha]
  rw [hp]
  simp only [hs]
  exact ⟨_, rfl⟩

/-- C1: for every oracle outcome and input on which `estimateDates` returns
a result, the restock date is the earlier of the capped expiration instant
and the raw restock instant, hence never later than the expiration date;
and on purchase date 2024-01-01 with shelf-life horizon 10 and restock
horizon 400, both returned dates are 2024-01-11. -/
theorem c1_restock_le_expiration :
    (∀ (oracle : OracleOutcome) (input : EstimateDatesInput) (out : EstimateDatesOutput),
      estimateDates oracle input = some out →
      ∃ e r : Int, out.estimatedExpirationAt = formatDate e ∧
        out.estimatedRestockAt = formatDate r ∧ r ≤ e) ∧
    estimateDates (.ok ⟨some 10, some 400⟩) ⟨"item", "Pantry", "2024-01-01"⟩ =
      some ⟨"2024-01-11", "2024-01-11", "llm"⟩ := by
  constructor
  · intro oracle input out h
    obtain ⟨pd, sl, est, src, hp, ha, hs, hsrc, hexp, hrst⟩ :=
      estimateDates_some_inv oracle input out h
    cases hr : est.restock with
    | none =>
      simp only [hr] at hrst
      exact ⟨_, _, hexp, hrst, le_refl _⟩
    | some rk =>
      simp only [hr] at hrst
      by_cases hc :
          (min (if pd + sl > pd + 365 then pd + 365 else pd + sl) (pd + rk) == pd + rk) = true
      · rw [if_pos hc] at hrst
        exact ⟨_, pd + rk, hexp, hrst, min_eq_right_iff.mp (beq_iff_eq.mp hc)⟩
      · rw [if_neg hc] at hrst
        exact ⟨_, _, hexp, hrst, le_refl _⟩
  · decide

/-- Witness for C1 at the concrete restock-clamp example. -/
theorem c1_restock_le_expiration_witness :
    ∃ e r : Int,
      (EstimateDatesOutput.mk "2024-01-11" "2024-01-11" "llm").estimatedExpirationAt =
        formatDate e ∧
      (EstimateDatesOutput.mk "2024-01-11" "2024-01-11" "llm").estimatedRestockAt =
        formatDate r ∧ r ≤ e :=
  c1_restock_le_expiration.1 (.ok ⟨some 10, some 400⟩) ⟨"item", "Pantry", "2024-01-01"⟩
    ⟨"2024-01-11", "2024-01-11", "llm"⟩ (by decide)

/-- C2 counterexample: an oracle shelf-life of -5 days passes through
unvalidated and yields an expiration date (2023-12-27, day 19718) strictly
before the purchase date (2024-01-01, day 19723), refuting the lower bound
`purchasedAt <= estimatedExpirationAt` for unvalidated oracle output. -/
theorem c2_lower_bound_counterexample :
    estimateDates (.ok ⟨some (-5), some 7⟩) ⟨"milk", "Dairy", "2024-01-01"⟩ =
      some ⟨formatDate 19718, formatDate 19718, "llm"⟩ ∧
    parseDate "2024-01-01" = some 19723 ∧
    formatDate 19718 = "2023-12-27" ∧ (19718 : Int) < 19723 := by decide

/-- C2 amended: the upper bound `estimatedExpirationAt <= purchasedAt + 365
days` holds for every returned result; the lower bound
`purchasedAt <= estimatedExpirationAt` holds whenever the accepted
shelf-life horizon is nonnegative, in particular always on the heuristic
path, but not for negative oracle output. -/
theorem c2_expiration_bounds :
    ∀ (oracle : OracleOutcome) (input : EstimateDatesInput) (out : EstimateDatesOutput),
      estimateDates oracle input = some out →
      ∃ pd e : Int, parseDate input.purchasedAt = some pd ∧
        out.estimatedExpirationAt = formatDate e ∧ e ≤ pd + 365 ∧
        (∀ (est : RawEstimate) (src : String) (sl : Int),
          acceptedEstimate oracle input = some (est, src) → est.shelf_life = some sl →
          0 ≤ sl → pd ≤ e) ∧
        (getLLMEstimate oracle = none → pd ≤ e) := by
  intro oracle input out h
  obtain ⟨pd, sl, est, src, hp, ha, hs, hsrc, hexp, hrst⟩ :=
    estimateDates_some_inv oracle input out h
  refine ⟨pd, _, hp, hexp, ?_, ?_, ?_⟩
  · split <;> omega
  · intro est2 src2 sl2 ha2 hs2 hnn
    rw [ha] at ha2
    simp only [Option.some.injEq, Prod.mk.injEq] at ha2
    rw [← ha2.1] at hs2
    rw [hs] at hs2
    injection hs2 with hs2
    subst hs2
    split <;> omega
  · intro hllm
    cases hh : getHeuristicEstimate input.name input.category with
    | none =>
      have hnone : acceptedEstimate oracle input = none := by
        simp only [acceptedEstimate, hllm, hh]
      rw [hnone] at ha
      exact absurd ha (by simp)
    | some p =>
      have ha2 := acceptedEstimate_heuristic oracle input p hllm hh
      rw [ha] at ha2
      simp only [Option.some.injEq, Prod.mk.injEq] at ha2
      have hsl : est.shelf_life = some p.shelf_life := by
        rw [ha2.1]
        rfl
      rw [hs] at hsl
      injection hsl with hsl
      have hb := (getHeuristicEstimate_bounds input.name input.category p hh).1
      rw [← hsl] at hb
      split <;> omega

/-- Witness for C2 at a concrete heuristic-path call. -/
theorem c2_expiration_bounds_witness :
    ∃ pd e : Int, parseDate "2024-01-01" = some pd ∧
      (EstimateDatesOutput.mk "2024-01-08" "2024-01-08" "heuristic").estimatedExpirationAt =
        formatDate e ∧ e ≤ pd + 365 ∧
      (∀ (est : RawEstimate) (src : String) (sl : Int),
        acceptedEstimate .networkError ⟨"milk", "Dairy", "2024-01-01"⟩ = some (est, src) →
        est.shelf_life = some sl → 0 ≤ sl → pd ≤ e) ∧
      (getLLMEstimate .networkError = none → pd ≤ e) :=
  c2_expiration_bounds .networkError ⟨"milk", "Dairy", "2024-01-01"⟩
    ⟨"2024-01-08", "2024-01-08", "heuristic"⟩ (by decide)

/-- C3 counterexample: a successful oracle call yields `source = "llm"`,
not `source = "external"` as the claim states. -/
theorem c3_source_counterexample :
    (estimateDates (.ok ⟨some 5, some 5⟩) ⟨"milk", "Dairy", "2024-01-01"⟩).map
      EstimateDatesOutput.source = some "llm" ∧
    ("llm" : String) ≠ "external" := by decide

/-- C3 amended: when the oracle call succeeds its pair is accepted with
`source = "llm"`; when it is unavailable the heuristic pair is accepted
with `source = "heuristic"`; every result carries exactly one of these two
values. -/
theorem c3_source_values :
    ∀ (oracle : OracleOutcome) (input : EstimateDatesInput) (out : EstimateDatesOutput),
      estimateDates oracle input = some out →
      (out.source = "llm" ∨ out.source = "heuristic") ∧
      ((getLLMEstimate oracle).isSome → out.source = "llm") ∧
      (getLLMEstimate oracle = none → out.source = "heuristic") := by
  intro oracle input out h
  obtain ⟨pd, sl, est, src, hp, ha, hs, hsrc, hexp, hrst⟩ :=
    estimateDates_some_inv oracle input out h
  cases hllm : getLLMEstimate oracle with
  | none =>
    cases hh : getHeuristicEstimate input.name input.category with
    | none => simp_all [acceptedEstimate, hllm, hh]
    | some p =>
      have ha2 := acceptedEstimate_heuristic oracle input p hllm hh
      rw [ha] at ha2
      simp only [Option.some.injEq, Prod.mk.injEq] at ha2
      rw [hsrc, ← ha2.2]
      simp
  | some e =>
    have ha2 : acceptedEstimate oracle input = some (e, "llm") := by
      simp only [acceptedEstimate, hllm]
    rw [ha] at ha2
    simp only [Option.some.injEq, Prod.mk.injEq] at ha2
    rw [hsrc, ← ha2.2]
    simp

/-- Witness for C3 at a concrete oracle-success call. -/
theorem c3_source_values_witness :
    ((EstimateDatesOutput.mk "2024-01-06" "2024-01-06" "llm").source = "llm" ∨
      (EstimateDatesOutput.mk "2024-01-06" "2024-01-06" "llm").source = "heuristic") ∧
    ((getLLMEstimate (.ok ⟨some 5, some 5⟩)).isSome →
      (EstimateDatesOutput.mk "2024-01-06" "2024-01-06" "llm").source = "llm") ∧
    (getLLMEstimate (.ok ⟨some 5, some 5⟩) = none →
      (EstimateDatesOutput.mk "2024-01-06" "2024-01-06" "llm").source = "heuristic") :=
  c3_source_values (.ok ⟨some 5, some 5⟩) ⟨"milk", "Dairy", "2024-01-01"⟩
    ⟨"2024-01-06", "2024-01-06", "llm"⟩ (by decide)

/-- C4: for every category present in the rule table the resolver
lower-cases the name and returns the pair of the first keyword (in authored
order) that is a substring; for the Meat category the name
"frozen ground beef" resolves to the pair of "beef", the first of its
matching keywords in the authored list. -/
theorem c4_first_keyword_wins :
    (∀ (name category : String) (rule : String × CategoryRule),
      HEURISTIC_RULES.find? (fun r => r.1 == category) = some rule →
      getHeuristicEstimate name category =
        some (match rule.2.keywords.find? (fun kr => strIncludes (strToLower name) kr.1) with
          | some kr => kr.2
          | none => rule.2.default)) ∧
    getHeuristicEstimate "frozen ground beef" "Meat" = some ⟨3, 10⟩ ∧
    (HEURISTIC_RULES.find? (fun r => r.1 == "Meat")).map
        (fun rule =>
          rule.2.keywords.find? (fun kr => strIncludes (strToLower "frozen ground beef") kr.1)) =
      some (some ("beef", ⟨3, 10⟩)) := by
  refine ⟨?_, by decide, by decide⟩
  intro name category rule hf
  have hl : rulesLookup category = .own rule.2 := by
    simp only [rulesLookup, hf]
  simp only [getHeuristicEstimate, hl]
  cases rule.2.keywords.find? (fun kr => strIncludes (strToLower name) kr.1) <;> rfl

/-- Witness for C4 at a concrete table category. -/
theorem c4_first_keyword_wins_witness :
    getHeuristicEstimate "cat litter" "Pet" =
      some (match (([("food", ⟨90, 30⟩), ("treats", ⟨180, 60⟩), ("litter", ⟨365, 30⟩)] :
            List (String × HorizonPair)).find?
          (fun kr => strIncludes (strToLower "cat litter") kr.1)) with
        | some kr => kr.2
        | none => (⟨90, 30⟩ : HorizonPair)) :=
  c4_first_keyword_wins.1 "cat litter" "Pet"
    ("Pet", ⟨⟨90, 30⟩, [("food", ⟨90, 30⟩), ("treats", ⟨180, 60⟩), ("litter", ⟨365, 30⟩)]⟩)
    (by decide)

/-- C5 counterexample: a parseable 2xx payload with a missing shelf-life
field is not treated as Unavailable (the client returns it as a success),
and the orchestrator then throws instead of degrading to the heuristic
path, while the same input succeeds when the oracle fails cleanly. -/
theorem c5_missing_field_counterexample :
    getLLMEstimate (.ok ⟨none, some 7⟩) = some ⟨none, some 7⟩ ∧
    estimateDates (.ok ⟨none, some 7⟩) ⟨"milk", "Dairy", "2024-01-01"⟩ = none ∧
    estimateDates .networkError ⟨"milk", "Dairy", "2024-01-01"⟩ =
      some ⟨"2024-01-08", "2024-01-08", "heuristic"⟩ := by decide

/-- C5 amended: a non-2xx status, an unparseable body, a network error and
a timeout are all treated as Unavailable, never raised as oracle failures,
and degrade to the heuristic path, which yields a complete result whenever
the purchase date parses and the heuristic resolver yields a pair; but a
parseable 2xx payload with missing numeric fields is accepted and makes
the orchestrator throw, and a category naming an `Object.prototype`
property makes the degraded heuristic path itself throw. -/
theorem c5_transport_failures_degrade :
    ∀ (oracle : OracleOutcome) (input : EstimateDatesInput),
      oracle = .badStatus ∨ oracle = .parseError ∨ oracle = .networkError ∨
        oracle = .timeout →
      getLLMEstimate oracle = none ∧
      estimateDates oracle input = estimateDates .networkError input ∧
      (∀ out, estimateDates oracle input = some out → out.source = "heuristic") ∧
      (∀ (pd : Int) (p : HorizonPair), parseDate input.purchasedAt = some pd →
        getHeuristicEstimate input.name input.category = some p →
        ∃ out, estimateDates oracle input = some out) ∧
      (getHeuristicEstimate input.name input.category = none →
        estimateDates oracle input = none) := by
  intro oracle input ho
  have hllm : getLLMEstimate oracle = none := by
    rcases ho with h | h | h | h <;> subst h <;> rfl
  refine ⟨hllm, ?_, ?_, ?_, ?_⟩
  · simp only [estimateDates, acceptedEstimate, hllm]
    rfl
  · intro out h
    obtain ⟨pd, sl, est, src, hp, ha, hs, hsrc, hexp, hrst⟩ :=
      estimateDates_some_inv oracle input out h
    cases hh : getHeuristicEstimate input.name input.category with
    | none =>
      have hnone : acceptedEstimate oracle input = none := by
        simp only [acceptedEstimate, hllm, hh]
      rw [hnone] at ha
      exact absurd ha (by simp)
    | some p =>
      have ha2 := acceptedEstimate_heuristic oracle input p hllm hh
      rw [ha] at ha2
      simp only [Option.some.injEq, Prod.mk.injEq] at ha2
      rw [hsrc, ha2.2]
  · intro pd p hp hh
    exact estimateDates_isSome oracle input pd p.shelf_life (toRawEstimate p) "heuristic"
      hp (acceptedEstimate_heuristic oracle input p hllm hh) rfl
  · intro hh
    simp only [estimateDates, acceptedEstimate, hllm, hh]

/-- Witness for C5 at the timeout outcome and a concrete input. -/
theorem c5_transport_failures_degrade_witness :
    getLLMEstimate .timeout = none ∧
    estimateDates .timeout ⟨"milk", "Dairy", "2024-01-01"⟩ =
      estimateDates .networkError ⟨"milk", "Dairy", "2024-01-01"⟩ ∧
    (EstimateDatesOutput.mk "2024-01-08" "2024-01-08" "heuristic").source = "heuristic" ∧
    ∃ out, estimateDates .timeout ⟨"milk", "Dairy", "2024-01-01"⟩ = some out :=
  have h := c5_transport_failures_degrade .timeout ⟨"milk", "Dairy", "2024-01-01"⟩
    (Or.inr (Or.inr (Or.inr rfl)))
  ⟨h.1, h.2.1,
    h.2.2.1 ⟨"2024-01-08", "2024-01-08", "heuristic"⟩ (by decide),
    h.2.2.2.1 19723 ⟨7, 7⟩ (by decide) (by decide)⟩

/-- C6 counterexample: an empty item name is not rejected; the call
completes and returns a full heuristic result (the Dairy default pair). -/
theorem c6_empty_name_counterexample :
    estimateDates .networkError ⟨"", "Dairy", "2024-01-01"⟩ =
      some ⟨"2024-01-08", "2024-01-08", "heuristic"⟩ := by decide

/-- C6 amended: an unparseable purchase date is surfaced to the caller as a
rejected call; an empty name is not validated, and the heuristic path
produces a complete result for any parseable purchase date whenever the
category's heuristic lookup yields a pair (every category except the
`Object.prototype` property names, for which the call also throws). -/
theorem c6_invalid_input_behavior :
    ∀ (oracle : OracleOutcome) (input : EstimateDatesInput),
      (parseDate input.purchasedAt = none → estimateDates oracle input = none) ∧
      (∀ (pd : Int) (p : HorizonPair), parseDate input.purchasedAt = some pd →
        getLLMEstimate oracle = none →
        getHeuristicEstimate input.name input.category = some p →
        ∃ out, estimateDates oracle input = some out) := by
  intro oracle input
  constructor
  · intro hp
    simp only [estimateDates, hp]
    cases acceptedEstimate oracle input <;> rfl
  · intro pd p hp hllm hh
    exact estimateDates_isSome oracle input pd p.shelf_life (toRawEstimate p) "heuristic"
      hp (acceptedEstimate_heuristic oracle input p hllm hh) rfl

/-- Witness for C6: an unparseable month rejects, an empty name succeeds. -/
theorem c6_invalid_input_behavior_witness :
    estimateDates .networkError ⟨"milk", "Dairy", "2024-99-01"⟩ = none ∧
    ∃ out, estimateDates .networkError ⟨"", "Dairy", "2024-01-01"⟩ = some out :=
  ⟨(c6_invalid_input_behavior .networkError ⟨"milk", "Dairy", "2024-99-01"⟩).1 (by decide),
   (c6_invalid_input_behavior .networkError ⟨"", "Dairy", "2024-01-01"⟩).2 19723 ⟨7, 10⟩
     (by decide) rfl (by decide)⟩

/-- C7: a shelf-life horizon of 1000 days on purchase date 2024-01-01 is
capped to exactly 2024-12-31 (365 days across the 2024 leap year), both for
arbitrary oracle output and on a concrete heuristic 730-day rule. -/
theorem c7_leap_year_cap :
    (∀ (name category : String) (r : Option Int),
      (estimateDates (.ok ⟨some 1000, r⟩) ⟨name, category, "2024-01-01"⟩).map
        EstimateDatesOutput.estimatedExpirationAt = some "2024-12-31") ∧
    (estimateDates .timeout ⟨"canned beans", "Pantry", "2024-01-01"⟩).map
      EstimateDatesOutput.estimatedExpirationAt = some "2024-12-31" := by
  refine ⟨?_, by decide⟩
  intro name category r
  have hp : parseDate "2024-01-01" = some 19723 := by decide
  simp only [estimateDates, acceptedEstimate, getLLMEstimate, hp, Option.map]
  decide

/-- C8 counterexample: the category "toString" is absent from the authored
rule table, yet the JavaScript lookup returns the truthy inherited
`Object.prototype.toString`, the falsiness fallback is skipped, the
resolver returns `undefined` instead of the 30-and-30 pair, and the
orchestrator throws instead of returning a result. -/
theorem c8_prototype_category_counterexample :
    HEURISTIC_RULES.find? (fun r => r.1 == "toString") = none ∧
    getHeuristicEstimate "milk" "toString" = none ∧
    getHeuristicEstimate "milk" "toString" ≠ some ⟨30, 30⟩ ∧
    estimateDates .networkError ⟨"milk", "toString", "2024-01-01"⟩ = none := by decide

/-- C8 amended: for every name and every category absent from the rule
table that is not an `Object.prototype` property name, the resolver
returns the global fallback pair of 30 shelf-life days and 30 restock
days; for the inherited property names it returns `undefined` instead,
and the orchestrator then throws. -/
theorem c8_unknown_category_fallback :
    (∀ name category : String,
      HEURISTIC_RULES.find? (fun r => r.1 == category) = none →
      OBJECT_PROTOTYPE_KEYS.contains category = false →
      getHeuristicEstimate name category = some ⟨30, 30⟩) ∧
    getHeuristicEstimate "dragonfruit" "Exotic" = some ⟨30, 30⟩ ∧
    (∀ name category : String,
      HEURISTIC_RULES.find? (fun r => r.1 == category) = none →
      OBJECT_PROTOTYPE_KEYS.contains category = true →
      getHeuristicEstimate name category = none) := by
  refine ⟨?_, by decide, ?_⟩
  · intro name category hf hk
    simp only [getHeuristicEstimate, rulesLookup, hf, hk]
    rfl
  · intro name category hf hk
    simp only [getHeuristicEstimate, rulesLookup, hf, hk]
    rfl

/-- Witness for C8 at an unknown category and an inherited property name. -/
theorem c8_unknown_category_fallback_witness :
    getHeuristicEstimate "starfruit" "Exotic" = some ⟨30, 30⟩ ∧
    getHeuristicEstimate "starfruit" "valueOf" = none :=
  ⟨c8_unknown_category_fallback.1 "starfruit" "Exotic" (by decide) (by decide),
   c8_unknown_category_fallback.2.2 "starfruit" "valueOf" (by decide) (by decide)⟩

/-- C9: with any two deterministically failing oracle outcomes, identical
inputs produce identical results; the fallback path is a pure function of
the input alone. -/
theorem c9_failing_oracle_deterministic :
    ∀ (o1 o2 : OracleOutcome) (input : EstimateDatesInput),
      getLLMEstimate o1 = none → getLLMEstimate o2 = none →
      estimateDates o1 input = estimateDates o2 input := by
  intro o1 o2 input h1 h2
  simp only [estimateDates, acceptedEstimate, h1, h2]

/-- Witness for C9 at two concrete failing outcomes. -/
theorem c9_failing_oracle_deterministic_witness :
    estimateDates .networkError ⟨"milk", "Dairy", "2024-01-01"⟩ =
      estimateDates .timeout ⟨"milk", "Dairy", "2024-01-01"⟩ :=
  c9_failing_oracle_deterministic .networkError .timeout
    ⟨"milk", "Dairy", "2024-01-01"⟩ rfl rfl

/-- C10 counterexample: at a category naming an `Object.prototype`
property the resolver yields no pair at all (JavaScript `undefined`), so
no positive restock horizon is resolved and the heuristic path returns no
restock date: the orchestrator throws. -/
theorem c10_prototype_category_counterexample :
    getHeuristicEstimate "dog food" "constructor" = none ∧
    estimateDates .timeout ⟨"dog food", "constructor", "2024-01-01"⟩ = none := by decide

/-- C10 amended: whenever the heuristic resolver yields a pair (every name
and every category except the `Object.prototype` property names), its
restock horizon is at least 7 days, so whenever the heuristic path returns
a result the restock date is never earlier than the purchase date. -/
theorem c10_heuristic_restock_not_before_purchase :
    (∀ (name category : String) (p : HorizonPair),
      getHeuristicEstimate name category = some p → 7 ≤ p.restock) ∧
    (∀ (oracle : OracleOutcome) (input : EstimateDatesInput) (out : EstimateDatesOutput)
      (pd : Int), getLLMEstimate oracle = none → estimateDates oracle input = some out →
      parseDate input.purchasedAt = some pd →
      ∃ r : Int, out.estimatedRestockAt = formatDate r ∧ pd ≤ r) := by
  constructor
  · intro name category p hres
    exact (getHeuristicEstimate_bounds name category p hres).2
  · intro oracle input out pd hllm h hp
    obtain ⟨pd2, sl, est, src, hp2, ha, hs, hsrc, hexp, hrst⟩ :=
      estimateDates_some_inv oracle input out h
    rw [hp] at hp2
    injection hp2 with hpd
    subst hpd
    cases hh : getHeuristicEstimate input.name input.category with
    | none =>
      have hnone : acceptedEstimate oracle input = none := by
        simp only [acceptedEstimate, hllm, hh]
      rw [hnone] at ha
      exact absurd ha (by simp)
    | some p =>
      have ha2 := acceptedEstimate_heuristic oracle input p hllm hh
      rw [ha] at ha2
      simp only [Option.some.injEq, Prod.mk.injEq] at ha2
      have hb := getHeuristicEstimate_bounds input.name input.category p hh
      have hsl : est.shelf_life = some p.shelf_life := by
        rw [ha2.1]
        rfl
      rw [hs] at hsl
      injection hsl with hsl
      have hr : est.restock = some p.restock := by
        rw [ha2.1]
        rfl
      simp only [hr] at hrst
      by_cases hc :
          (min (if pd + sl > pd + 365 then pd + 365 else pd + sl) (pd + p.restock) ==
            pd + p.restock) = true
      · rw [if_pos hc] at hrst
        exact ⟨_, hrst, by omega⟩
      · rw [if_neg hc] at hrst
        refine ⟨_, hrst, ?_⟩
        have h1 : 1 ≤ p.shelf_life := hb.1
        rw [← hsl] at h1
        split <;> omega

/-- Witness for C10 at a concrete heuristic-path call. -/
theorem c10_heuristic_restock_not_before_purchase_witness :
    7 ≤ (HorizonPair.mk 7 7).restock ∧
    ∃ r : Int,
      (EstimateDatesOutput.mk "2024-01-08" "2024-01-08" "heuristic").estimatedRestockAt =
        formatDate r ∧ (19723 : Int) ≤ r :=
  ⟨c10_heuristic_restock_not_before_purchase.1 "milk" "Dairy" ⟨7, 7⟩ (by decide),
   c10_heuristic_restock_not_before_purchase.2 .networkError
     ⟨"milk", "Dairy", "2024-01-01"⟩ ⟨"2024-01-08", "2024-01-08", "heuristic"⟩ 19723
     rfl (by decide) (by decide)⟩

end ProxDates
